import Mathlib

/-!
Verification of the MapReduce pipeline in `src/homework/mapreduce.py`.

The whole program is a single module with five private helpers and an
orchestrator `run_mapreduce_job`.  We embed it shallowly:

* The input directory is `Option (List FSFile)` — `none` models a path
  that does not exist on disk, `some entries` models an existing
  directory whose direct entries (in filesystem enumeration order) are
  `entries`.  File identifiers (the strings returned by
  `fileinput.filename()`) are modelled by the entry names.
* `glob.glob(f"{input_directory}/*")` is modelled by `glob`: it lists
  the direct entries, skipping names that begin with a dot (the `*`
  wildcard of Python's `glob` module does not match hidden files), and
  returns `[]` when the directory does not exist.
* `fileinput.input(files=files)` has a documented fallback: when the
  file list is empty (`if not files: files = ('-',)` in CPython's
  `fileinput.FileInput.__init__`), it reads `sys.stdin` and reports the
  file name `"<stdin>"`.  We therefore thread an explicit `stdin`
  stream (a list of lines) through the loader and the orchestrator;
  reading it consumes it.
* `sorted(sequence, key=lambda x: x[0])` is a stable sort by the first
  component.  A stable sort by key is extensionally unique, so we embed
  it as insertion sort ordered by `Prod.fst`; instantiated at
  `K = String` the order is Mathlib's lexicographic order on strings,
  matching Python's string comparison.
* The output directory is `Option (List Entry)`; an `Entry` is a named
  file (or subdirectory, `isDir = true`) with its text content.
  `os.remove` fails on a directory and `os.rmdir` fails on a non-empty
  directory, which the embedding reproduces.
* Exceptions are modelled with `Except String`/`Option String`; the
  user-supplied mapper and reducer may fail
  (`List R → Except String (List R)`).
* The orchestrator additionally returns a trace of events so that
  temporal claims (call counts, write ordering) can be stated.
-/

namespace MapReduce

/-- A file of the input directory: its name and its list of lines
(the line strings keep whatever trailing-newline convention the
source uses; the loader does not strip anything). -/
structure FSFile where
  name : String
  lines : List String
deriving DecidableEq, Repr

/-- Does a file name begin with a dot?  The `*` wildcard of Python's
`glob` module does not match such names. -/
def dotName (s : String) : Bool :=
  match s.data with
  | [] => false
  | c :: _ => c == '.'

/-- Model of `glob.glob(f"{dir}/*")` on an existing directory: every direct
entry, in enumeration order, except those whose name begins with a
dot — the `*` wildcard does not match hidden files. -/
def glob (entries : List FSFile) : List FSFile :=
  entries.filter (fun f => !dotName f.name)

/-- Model of `glob.glob(f"{dir}/*")` including the non-existing-directory case,
where it returns the empty list rather than raising. -/
def globOpt : Option (List FSFile) → List FSFile
  | none => []
  | some entries => glob entries

/-- Model of `_load_input(input_directory)`, plus the ambient `sys.stdin`
stream that `fileinput` falls back to when the globbed file list is
empty.  Returns one `(identifier, line)` pair per line read. -/
def _load_input (input_directory : Option (List FSFile)) (stdin : List String) :
    List (String × String) :=
  let files := globOpt input_directory
  if files.isEmpty then
    stdin.map (fun line => ("<stdin>", line))
  else
    files.flatMap (fun f => f.lines.map (fun line => (f.name, line)))

/-- The `sys.stdin` stream left over after `_load_input` ran: when the
globbed file list is empty, `fileinput` iterates stdin to exhaustion;
otherwise stdin is untouched. -/
def _stdin_after_load (input_directory : Option (List FSFile)) (stdin : List String) :
    List String :=
  if (globOpt input_directory).isEmpty then [] else stdin

/-- The comparison `sorted(..., key=lambda x: x[0])` performs: compare
pairs by their first component only. -/
def keyLE {K V : Type} [LinearOrder K] (a b : K × V) : Prop := a.1 ≤ b.1

instance {K V : Type} [LinearOrder K] : DecidableRel (keyLE (K := K) (V := V)) :=
  fun a b => inferInstanceAs (Decidable (a.1 ≤ b.1))

instance {K V : Type} [LinearOrder K] : IsTotal (K × V) keyLE :=
  ⟨fun a b => le_total a.1 b.1⟩

instance {K V : Type} [LinearOrder K] : IsTrans (K × V) keyLE :=
  ⟨fun _ _ _ h₁ h₂ => le_trans h₁ h₂⟩

/-- Model of `_shuffle_and_sort(sequence)`: Python's `sorted` with
`key=lambda x: x[0]` — the unique stable sort by the first component.
The value type `V` carries no order instance: the sort never compares
values. -/
def _shuffle_and_sort {K V : Type} [LinearOrder K] (sequence : List (K × V)) :
    List (K × V) :=
  List.insertionSort keyLE sequence

/-- A direct entry of the output directory: a name, a text content and
whether the entry is a subdirectory (whose content is irrelevant). -/
structure Entry where
  name : String
  content : String
  isDir : Bool
deriving DecidableEq, Repr

/-- Model of `open(f"{dir}/{name}", "w")` followed by writing `content`:
truncate the file if an entry of that name exists, create it at the
end of the directory otherwise. -/
def writeFile (entries : List Entry) (name content : String) : List Entry :=
  if entries.any (fun e => e.name = name) then
    entries.map (fun e => if e.name = name then { e with content := content, isDir := false } else e)
  else
    entries ++ [⟨name, content, false⟩]

/-- The removal loop of `_create_output_directory`:
`for file in glob.glob(f"{output_directory}/*"): os.remove(file)`.
Entries whose names begin with a dot are not matched by `*` and
survive; `os.remove` raises `IsADirectoryError` on a subdirectory,
aborting the loop.  On failure the `error` payload is the directory
contents at the moment the exception was raised (matched plain files
processed before the offending entry are already gone). -/
def removeGlobbed : List Entry → Except (List Entry) (List Entry)
  | [] => .ok []
  | e :: rest =>
    if dotName e.name then
      match removeGlobbed rest with
      | .ok survivors => .ok (e :: survivors)
      | .error leftover => .error (e :: leftover)
    else if e.isDir then
      .error (e :: rest)
    else
      removeGlobbed rest

/-- Model of `_create_output_directory(output_directory)`: if the directory
exists, remove every globbed entry, `os.rmdir` it (raising
`OSError: Directory not empty` if dot-named entries survived), then
`os.makedirs` recreates it empty.  On failure the `error` payload is
the directory contents left behind. -/
def _create_output_directory (output_directory : Option (List Entry)) :
    Except (List Entry) (List Entry) :=
  match output_directory with
  | none => .ok []
  | some entries =>
    match removeGlobbed entries with
    | .error leftover => .error leftover
    | .ok survivors =>
      if survivors.isEmpty then .ok [] else .error survivors

/-- The text `_save_output` writes into the result file: the loop
`f.write(f"{key}\t{value}\n")` appends `key ++ TAB ++ value ++ NL`
for each record in reducer order. -/
def resultContent (sequence : List (String × String)) : String :=
  sequence.foldl (fun acc p => acc ++ p.1 ++ "\t" ++ p.2 ++ "\n") ""

/-- Model of `_save_output(output_directory, sequence)`: write the whole
sequence into the single file `part-00000` of the output directory. -/
def _save_output (output_directory : List Entry) (sequence : List (String × String)) :
    List Entry :=
  writeFile output_directory "part-00000" (resultContent sequence)

/-- Model of `_create_marker(output_directory)`: create the empty `_SUCCESS`
marker file. -/
def _create_marker (output_directory : List Entry) : List Entry :=
  writeFile output_directory "_SUCCESS" ""

/-- Observable events of one orchestrator run, in order: the mapper
and reducer invocations (with the exact sequence each was given), the
destructive reset of the output directory, the write of the result
artifact, and the write of the marker artifact. -/
inductive Event
  | mapperCalled (sequence : List (String × String))
  | reducerCalled (sequence : List (String × String))
  | resetDir
  | savedOutput
  | createdMarker
deriving DecidableEq, Repr

/-- Does the event record an invocation of the user-supplied mapper? -/
def Event.isMapperCall : Event → Bool
  | .mapperCalled _ => true
  | _ => false

/-- Does the event record an invocation of the user-supplied reducer? -/
def Event.isReducerCall : Event → Bool
  | .reducerCalled _ => true
  | _ => false

/-- The state the orchestrator touches: the input directory (read
only), the ambient `sys.stdin` stream (consumed by the loader's
fallback), and the output directory. -/
structure World where
  input : Option (List FSFile)
  stdin : List String
  output : Option (List Entry)
deriving DecidableEq, Repr

/-- Result of one orchestrator run: the exception that aborted it (or
`none` on success), the final state, and the trace of events. -/
structure RunResult where
  err : Option String
  world : World
  trace : List Event
deriving DecidableEq, Repr

/-- Model of `run_mapreduce_job(mapper, reducer, input_directory,
output_directory)`: load, map, shuffle-sort, reduce, reset the output
directory, save the result, create the marker.  Any exception aborts
the run at that point and propagates unmodified. -/
def run_mapreduce_job
    (mapper reducer : List (String × String) → Except String (List (String × String)))
    (w : World) : RunResult :=
  let sequence := _load_input w.input w.stdin
  let w₁ : World := { w with stdin := _stdin_after_load w.input w.stdin }
  match mapper sequence with
  | .error e => ⟨some e, w₁, [.mapperCalled sequence]⟩
  | .ok mapped =>
    let sorted := _shuffle_and_sort mapped
    match reducer sorted with
    | .error e => ⟨some e, w₁, [.mapperCalled sequence, .reducerCalled sorted]⟩
    | .ok reduced =>
      match _create_output_directory w.output with
      | .error leftover =>
        ⟨some "OSError", { w₁ with output := some leftover },
          [.mapperCalled sequence, .reducerCalled sorted]⟩
      | .ok fresh =>
        let afterSave := _save_output fresh reduced
        let afterMarker := _create_marker afterSave
        ⟨none, { w₁ with output := some afterMarker },
          [.mapperCalled sequence, .reducerCalled sorted, .resetDir,
            .savedOutput, .createdMarker]⟩


theorem filter_orderedInsert_key {K V : Type} [LinearOrder K] (k : K) (a : K × V)
    (l : List (K × V)) :
    (List.orderedInsert keyLE a l).filter (fun r => r.1 = k) =
      if a.1 = k then a :: l.filter (fun r => r.1 = k) else l.filter (fun r => r.1 = k) := by
  induction l with
  | nil =>
    by_cases hk : a.1 = k <;> simp [List.orderedInsert, List.filter, hk]
  | cons b t ih =>
    simp only [List.orderedInsert]
    by_cases hab : keyLE a b
    · rw [if_pos hab]
      by_cases hk : a.1 = k <;> simp [List.filter_cons, hk]
    · rw [if_neg hab]
      have hba : b.1 < a.1 := lt_of_not_le hab
      by_cases hk : a.1 = k
      · have hbk : ¬ b.1 = k := by
          rw [← hk]
          exact ne_of_lt hba
        simp [List.filter_cons, hk, hbk, ih]
      · simp [List.filter_cons, ih, hk]

theorem filter_insertionSort_key {K V : Type} [LinearOrder K] (k : K) (l : List (K × V)) :
    (List.insertionSort keyLE l).filter (fun r => r.1 = k) = l.filter (fun r => r.1 = k) := by
  induction l with
  | nil => rfl
  | cons a t ih =>
    simp only [List.insertionSort]
    rw [filter_orderedInsert_key]
    by_cases hk : a.1 = k <;> simp [List.filter_cons, hk, ih]

/-- C2: `_shuffle_and_sort` returns a permutation of its input (same
multiset of records, none created, dropped or mutated), with keys in
ascending order (lexicographic when `K = String`), and stably: for
every key `k` the subsequence of records carrying `k` is exactly the
input's subsequence, so equal-key records keep their relative order. -/
theorem shuffle_and_sort_perm_sorted_stable {K V : Type} [LinearOrder K]
    (sequence : List (K × V)) :
    (_shuffle_and_sort sequence).Perm sequence ∧
    (_shuffle_and_sort sequence).Sorted (fun a b => a.1 ≤ b.1) ∧
    ∀ k : K, (_shuffle_and_sort sequence).filter (fun r => r.1 = k)
      = sequence.filter (fun r => r.1 = k) :=
  ⟨List.perm_insertionSort keyLE sequence,
   List.sorted_insertionSort keyLE sequence,
   fun k => filter_insertionSort_key k sequence⟩

/-- C10: the shuffle-sort compares keys only.  Its definition imposes
no order (indeed no structure at all) on the value type, so it
applies to values of any type; relabelling every value in place
commutes with sorting, and the key column of the output is obtained
by sorting the key column of the input alone — the ordering is
independent of the values. -/
theorem shuffle_and_sort_ignores_values {K V W : Type} [LinearOrder K]
    (g : V → W) (sequence : List (K × V)) :
    (_shuffle_and_sort sequence).map (Prod.map id g)
        = _shuffle_and_sort (sequence.map (Prod.map id g)) ∧
    (_shuffle_and_sort sequence).map Prod.fst
        = List.insertionSort (fun a b => a ≤ b) (sequence.map Prod.fst) :=
  ⟨List.map_insertionSort keyLE keyLE (Prod.map id g) sequence
      (fun _ _ _ _ => Iff.rfl),
   List.map_insertionSort keyLE (fun a b => a ≤ b) Prod.fst sequence
      (fun _ _ _ _ => Iff.rfl)⟩



/-- C1 (code bug): `_load_input` on a missing input directory (or one
with no globbed entries) does not return the empty sequence: `glob`
yields `[]`, and `fileinput.input(files=[])` falls back to reading
`sys.stdin` under the name `<stdin>` (CPython: `if not files: files =
('-',)`), so the loader reads from another source, contradicting both
the spec and the function's own docstring. -/
theorem load_input_reads_stdin_on_empty_glob :
    _load_input none ["hello"] = [("<stdin>", "hello")] ∧
    _load_input (some []) ["hello"] ≠ [] ∧
    _load_input none [] = [] := by decide

/-- C3 counterexample: a directory holding a hidden file `.hidden`
(one line `"h"`) next to a plain file `a.txt` yields no record at all
for `.hidden` — `glob`'s `*` wildcard filters entries by name,
skipping names that begin with a dot, so the loader does not
enumerate every direct entry. -/
theorem load_input_skips_hidden_file :
    _load_input (some [⟨".hidden", ["h"]⟩, ⟨"a.txt", ["x"]⟩]) [] = [("a.txt", "x")] ∧
    (".hidden", "h") ∉ _load_input (some [⟨".hidden", ["h"]⟩, ⟨"a.txt", ["x"]⟩]) [] := by
  decide

/-- C3 amended: for every input directory in which at least one entry
is matched by `glob` (no dot-initial name), the loader enumerates
exactly the direct entries whose names do not begin with a dot —
non-recursively and with no further filtering — and produces one
record `(file name, line)` per line of every such entry: each such
line occurs in the output, and every output record comes from such an
entry. -/
theorem load_input_enumerates_nonhidden (entries : List FSFile) (stdin : List String)
    (hne : glob entries ≠ []) :
    (∀ f ∈ entries, dotName f.name = false → ∀ line ∈ f.lines,
        (f.name, line) ∈ _load_input (some entries) stdin) ∧
    (∀ r ∈ _load_input (some entries) stdin,
        ∃ f ∈ entries, dotName f.name = false ∧ f.name = r.1 ∧ r.2 ∈ f.lines) := by
  have hload : _load_input (some entries) stdin
      = (glob entries).flatMap (fun f => f.lines.map (fun line => (f.name, line))) := by
    unfold _load_input globOpt
    rw [if_neg]
    simpa [List.isEmpty_iff] using hne
  constructor
  · intro f hf hdot line hline
    rw [hload]
    rw [List.mem_flatMap]
    refine ⟨f, ?_, ?_⟩
    · unfold glob
      rw [List.mem_filter]
      exact ⟨hf, by simp [hdot]⟩
    · exact List.mem_map.mpr ⟨line, hline, rfl⟩
  · intro r hr
    rw [hload, List.mem_flatMap] at hr
    obtain ⟨f, hf, hrmem⟩ := hr
    rw [List.mem_map] at hrmem
    obtain ⟨line, hline, rfl⟩ := hrmem
    unfold glob at hf
    rw [List.mem_filter] at hf
    exact ⟨f, hf.1, by simpa using hf.2, rfl, hline⟩

/-- C3 amended, witness. -/
theorem load_input_enumerates_nonhidden_witness :
    (∀ f ∈ [(⟨".hidden", ["h"]⟩ : FSFile), ⟨"a.txt", ["x"]⟩], dotName f.name = false →
        ∀ line ∈ f.lines,
        (f.name, line) ∈ _load_input (some [⟨".hidden", ["h"]⟩, ⟨"a.txt", ["x"]⟩]) []) ∧
    (∀ r ∈ _load_input (some [⟨".hidden", ["h"]⟩, ⟨"a.txt", ["x"]⟩]) [],
        ∃ f ∈ [(⟨".hidden", ["h"]⟩ : FSFile), ⟨"a.txt", ["x"]⟩],
          dotName f.name = false ∧ f.name = r.1 ∧ r.2 ∈ f.lines) :=
  load_input_enumerates_nonhidden [⟨".hidden", ["h"]⟩, ⟨"a.txt", ["x"]⟩] [] (by decide)

theorem flatMap_lines_contiguous (f : FSFile) :
    ∀ fs : List FSFile, f ∈ fs → (fs.map FSFile.name).Nodup →
      ∃ l₁ l₂, fs.flatMap (fun g => g.lines.map (fun line => (g.name, line)))
          = l₁ ++ f.lines.map (fun line => (f.name, line)) ++ l₂ ∧
        (∀ r ∈ l₁, r.1 ≠ f.name) ∧ (∀ r ∈ l₂, r.1 ≠ f.name)
  | [], hmem, _ => absurd hmem (List.not_mem_nil f)
  | g :: fs, hmem, hnodup => by
    rw [List.map_cons, List.nodup_cons] at hnodup
    rcases List.mem_cons.mp hmem with hfg | hmem'
    · subst hfg
      refine ⟨[], fs.flatMap (fun g => g.lines.map (fun line => (g.name, line))),
        by simp [List.flatMap_cons], by simp, ?_⟩
      intro r hr
      rw [List.mem_flatMap] at hr
      obtain ⟨g', hg', hrmem⟩ := hr
      rw [List.mem_map] at hrmem
      obtain ⟨line, _, rfl⟩ := hrmem
      intro hgname
      exact hnodup.1 (hgname ▸ List.mem_map_of_mem FSFile.name hg')
    · obtain ⟨l₁, l₂, heq, h₁, h₂⟩ := flatMap_lines_contiguous f fs hmem' hnodup.2
      have hgf : g.name ≠ f.name := by
        intro hgname
        exact hnodup.1 (hgname ▸ List.mem_map_of_mem FSFile.name hmem')
      refine ⟨g.lines.map (fun line => (g.name, line)) ++ l₁, l₂, ?_, ?_, h₂⟩
      · rw [List.flatMap_cons, heq]
        simp [List.append_assoc]
      · intro r hr
        rcases List.mem_append.mp hr with hr | hr
        · rw [List.mem_map] at hr
          obtain ⟨line, _, rfl⟩ := hr
          exact hgf
        · exact h₁ r hr

/-- C4: the records coming from one input file appear contiguously in
the loader's output and in that file's own line order: the output
splits as `l₁ ++ (records of f, in f's line order) ++ l₂` where
neither `l₁` nor `l₂` contains a record labelled with `f`'s name —
lines of different files are never interleaved.  (Hypotheses: `f` is
one of the globbed entries, and entry names are distinct, as they are
in a real directory.) -/
theorem load_input_file_lines_contiguous (entries : List FSFile) (stdin : List String)
    (f : FSFile) (hf : f ∈ glob entries)
    (hnodup : ((glob entries).map FSFile.name).Nodup) :
    ∃ l₁ l₂, _load_input (some entries) stdin
        = l₁ ++ f.lines.map (fun line => (f.name, line)) ++ l₂ ∧
      (∀ r ∈ l₁, r.1 ≠ f.name) ∧ (∀ r ∈ l₂, r.1 ≠ f.name) := by
  have hne : glob entries ≠ [] := List.ne_nil_of_mem hf
  have hload : _load_input (some entries) stdin
      = (glob entries).flatMap (fun f => f.lines.map (fun line => (f.name, line))) := by
    unfold _load_input globOpt
    rw [if_neg]
    simpa [List.isEmpty_iff] using hne
  rw [hload]
  exact flatMap_lines_contiguous f (glob entries) hf hnodup

/-- C4, witness. -/
theorem load_input_file_lines_contiguous_witness :
    ∃ l₁ l₂, _load_input (some [⟨"a.txt", ["1", "2"]⟩, ⟨"b.txt", ["3"]⟩]) []
        = l₁ ++ [("a.txt", "1"), ("a.txt", "2")] ++ l₂ ∧
      (∀ r ∈ l₁, r.1 ≠ "a.txt") ∧ (∀ r ∈ l₂, r.1 ≠ "a.txt") :=
  load_input_file_lines_contiguous [⟨"a.txt", ["1", "2"]⟩, ⟨"b.txt", ["3"]⟩] []
    ⟨"a.txt", ["1", "2"]⟩ (by decide) (by decide)



theorem join_shift : ∀ (l : List String) (acc : String),
    l.foldl (fun r s => r ++ s) acc = acc ++ l.foldl (fun r s => r ++ s) ""
  | [], acc => by simp [String.append_empty]
  | s :: l, acc => by
    simp only [List.foldl_cons]
    rw [join_shift l (acc ++ s), join_shift l ("" ++ s), String.empty_append,
      String.append_assoc]

theorem join_cons' (s : String) (l : List String) :
    String.join (s :: l) = s ++ String.join l := by
  simp only [String.join, List.foldl_cons]
  rw [join_shift l ("" ++ s), String.empty_append]

theorem resultContent_shift : ∀ (sequence : List (String × String)) (acc : String),
    sequence.foldl (fun acc p => acc ++ p.1 ++ "\t" ++ p.2 ++ "\n") acc
      = acc ++ String.join (sequence.map (fun p => p.1 ++ "\t" ++ p.2 ++ "\n"))
  | [], acc => by simp [String.join, String.append_empty]
  | p :: t, acc => by
    rw [List.foldl_cons, resultContent_shift t, List.map_cons, join_cons']
    simp [String.append_assoc]

theorem resultContent_eq_join (sequence : List (String × String)) :
    resultContent sequence
      = String.join (sequence.map (fun p => p.1 ++ "\t" ++ p.2 ++ "\n")) := by
  unfold resultContent
  rw [resultContent_shift, String.empty_append]

theorem resultContent_newline_count : ∀ (sequence : List (String × String)),
    (∀ p ∈ sequence, '\n' ∉ p.1.data ∧ '\n' ∉ p.2.data) →
      (resultContent sequence).data.count '\n' = sequence.length
  | [], _ => by simp [resultContent]
  | p :: t, h => by
    rw [resultContent_eq_join, List.map_cons, join_cons', String.data_append,
      List.count_append, ← resultContent_eq_join t]
    have hp := h p (List.mem_cons_self p t)
    have hline : (p.1 ++ "\t" ++ p.2 ++ "\n").data.count '\n' = 1 := by
      simp only [String.data_append, List.count_append]
      rw [List.count_eq_zero.mpr hp.1, List.count_eq_zero.mpr hp.2]
      decide
    rw [hline, resultContent_newline_count t (fun q hq => h q (List.mem_cons_of_mem p hq))]
    simp [List.length_cons, Nat.add_comm]

/-- C5: the writer appends, for each record of the reducer's output
sequence in order, the line `key ++ TAB ++ value ++ NEWLINE` — the
accumulated file content equals the concatenation of one such line
per record, in exactly reducer order (no re-sorting), written into
the single result file `part-00000`; and when keys and values contain
no newline of their own, the file holds exactly one newline-terminated
line per record. -/
theorem save_output_one_line_per_record (output_directory : List Entry)
    (sequence : List (String × String)) :
    resultContent sequence
        = String.join (sequence.map (fun p => p.1 ++ "\t" ++ p.2 ++ "\n")) ∧
    _save_output output_directory sequence
        = writeFile output_directory "part-00000" (resultContent sequence) ∧
    ((∀ p ∈ sequence, '\n' ∉ p.1.data ∧ '\n' ∉ p.2.data) →
      (resultContent sequence).data.count '\n' = sequence.length) :=
  ⟨resultContent_eq_join sequence, rfl, resultContent_newline_count sequence⟩

/-- C5, witness. -/
theorem save_output_one_line_per_record_witness :
    resultContent [("cat", "1"), ("dog", "2")]
        = String.join [("cat" ++ "\t" ++ "1" ++ "\n"), ("dog" ++ "\t" ++ "2" ++ "\n")] ∧
    _save_output [] [("cat", "1"), ("dog", "2")]
        = writeFile [] "part-00000" (resultContent [("cat", "1"), ("dog", "2")]) ∧
    (resultContent [("cat", "1"), ("dog", "2")]).data.count '\n' = 2 :=
  have h := save_output_one_line_per_record [] [("cat", "1"), ("dog", "2")]
  ⟨h.1, h.2.1, h.2.2 (by decide)⟩



theorem removeGlobbed_sublist : ∀ entries : List Entry,
    (∀ l, removeGlobbed entries = .ok l → l.Sublist entries) ∧
    (∀ l, removeGlobbed entries = .error l → l.Sublist entries)
  | [] => by
    constructor <;> intro l h <;> simp [removeGlobbed] at h
    simp [h]
  | e :: rest => by
    have ih := removeGlobbed_sublist rest
    constructor <;> intro l h <;> unfold removeGlobbed at h
    · by_cases hdot : dotName e.name
      · rw [if_pos hdot] at h
        cases hr : removeGlobbed rest with
        | ok survivors =>
          rw [hr] at h
          simp only [Except.ok.injEq] at h
          subst h
          exact (ih.1 survivors hr).cons₂ e
        | error leftover => rw [hr] at h; cases h
      · rw [if_neg hdot] at h
        by_cases hd : e.isDir
        · rw [if_pos hd] at h; cases h
        · rw [if_neg hd] at h
          exact (ih.1 l h).cons e
    · by_cases hdot : dotName e.name
      · rw [if_pos hdot] at h
        cases hr : removeGlobbed rest with
        | ok survivors => rw [hr] at h; cases h
        | error leftover =>
          rw [hr] at h
          simp only [Except.error.injEq] at h
          subst h
          exact (ih.2 leftover hr).cons₂ e
      · rw [if_neg hdot] at h
        by_cases hd : e.isDir
        · rw [if_pos hd] at h
          simp only [Except.error.injEq] at h
          subst h
          exact List.Sublist.refl _
        · rw [if_neg hd] at h
          exact (ih.2 l h).cons e

theorem create_output_directory_ok (output_directory : Option (List Entry))
    (fresh : List Entry)
    (h : _create_output_directory output_directory = .ok fresh) : fresh = [] := by
  cases output_directory with
  | none =>
    simp only [_create_output_directory, Except.ok.injEq] at h
    exact h.symm
  | some entries =>
    simp only [_create_output_directory] at h
    cases hr : removeGlobbed entries with
    | error leftover => rw [hr] at h; cases h
    | ok survivors =>
      rw [hr] at h
      dsimp only at h
      by_cases he : survivors.isEmpty
      · rw [if_pos he] at h
        simp only [Except.ok.injEq] at h
        exact h.symm
      · rw [if_neg he] at h; cases h

theorem create_output_directory_error_sublist (output_directory : Option (List Entry))
    (leftover : List Entry)
    (h : _create_output_directory output_directory = .error leftover) :
    ∃ entries, output_directory = some entries ∧ leftover.Sublist entries := by
  cases output_directory with
  | none => simp [_create_output_directory] at h
  | some entries =>
    refine ⟨entries, rfl, ?_⟩
    simp only [_create_output_directory] at h
    cases hr : removeGlobbed entries with
    | error l =>
      rw [hr] at h
      dsimp only at h
      simp only [Except.error.injEq] at h
      subst h
      exact (removeGlobbed_sublist entries).2 _ hr
    | ok survivors =>
      rw [hr] at h
      dsimp only at h
      by_cases he : survivors.isEmpty
      · rw [if_pos he] at h; cases h
      · rw [if_neg he] at h
        simp only [Except.error.injEq] at h
        subst h
        exact (removeGlobbed_sublist entries).1 _ hr

/-- C7: whenever a run completes without error — whatever the
pre-existing output directory held, stale files included — the final
output directory exists and contains exactly two entries: the fresh
result file `part-00000` followed by the fresh empty marker
`_SUCCESS`; no prior entry survives, because the reset that a
successful run performed removed them all before recreating the
directory empty. -/
theorem successful_run_output_exactly_result_and_marker
    (mapper reducer : List (String × String) → Except String (List (String × String)))
    (w : World)
    (hok : (run_mapreduce_job mapper reducer w).err = none) :
    ∃ content, (run_mapreduce_job mapper reducer w).world.output
        = some [⟨"part-00000", content, false⟩, ⟨"_SUCCESS", "", false⟩] := by
  cases hm : mapper (_load_input w.input w.stdin) with
  | error e => simp [run_mapreduce_job, hm] at hok
  | ok mapped =>
    cases hr : reducer (_shuffle_and_sort mapped) with
    | error e => simp [run_mapreduce_job, hm, hr] at hok
    | ok reduced =>
      cases hd : _create_output_directory w.output with
      | error leftover => simp [run_mapreduce_job, hm, hr, hd] at hok
      | ok fresh =>
        have hfresh : fresh = [] := create_output_directory_ok w.output fresh hd
        subst hfresh
        refine ⟨resultContent reduced, ?_⟩
        simp [run_mapreduce_job, hm, hr, hd, _save_output, _create_marker, writeFile]

/-- C7, witness: a successful run over a stale output directory. -/
theorem successful_run_output_exactly_result_and_marker_witness :
    ∃ content, (run_mapreduce_job (fun s => .ok s) (fun s => .ok s)
        ⟨some [⟨"a.txt", ["x"]⟩], [], some [⟨"stale.txt", "junk", false⟩]⟩).world.output
      = some [⟨"part-00000", content, false⟩, ⟨"_SUCCESS", "", false⟩] :=
  successful_run_output_exactly_result_and_marker (fun s => .ok s) (fun s => .ok s)
    ⟨some [⟨"a.txt", ["x"]⟩], [], some [⟨"stale.txt", "junk", false⟩]⟩ (by decide)



/-- C6 counterexample: if the output directory already holds a marker
from a previous run and the new run fails before the destructive
reset (here: the mapper raises), the stale `_SUCCESS` file survives —
the marker exists even though the run did not complete without error,
refuting the claimed "if and only if". -/
theorem stale_marker_survives_failed_run :
    (run_mapreduce_job (fun _ => .error "boom") (fun s => .ok s)
        ⟨none, [], some [⟨"_SUCCESS", "", false⟩]⟩).err = some "boom" ∧
    "_SUCCESS" ∈ ((run_mapreduce_job (fun _ => .error "boom") (fun s => .ok s)
        ⟨none, [], some [⟨"_SUCCESS", "", false⟩]⟩).world.output.getD []).map Entry.name := by
  decide

/-- C6 amended: (1) the marker artifact is never written before the
result artifact: any trace containing the marker write ends with the
result write immediately followed by the marker write; (2) a run that
completes without error leaves the marker present; and (3) provided
the output directory did not already hold a `_SUCCESS` entry before
the run, the marker exists afterwards if and only if the run
completed without error (a stale pre-existing marker survives runs
that fail before the reset, which is the only deviation from the
original claim). -/
theorem marker_after_result_iff_success
    (mapper reducer : List (String × String) → Except String (List (String × String)))
    (w : World) :
    (Event.createdMarker ∈ (run_mapreduce_job mapper reducer w).trace →
      ∃ l₁, (run_mapreduce_job mapper reducer w).trace
          = l₁ ++ [Event.savedOutput, Event.createdMarker]) ∧
    ((run_mapreduce_job mapper reducer w).err = none →
      "_SUCCESS" ∈ ((run_mapreduce_job mapper reducer w).world.output.getD []).map
        Entry.name) ∧
    ("_SUCCESS" ∉ (w.output.getD []).map Entry.name →
      ((run_mapreduce_job mapper reducer w).err = none ↔
        "_SUCCESS" ∈ ((run_mapreduce_job mapper reducer w).world.output.getD []).map
          Entry.name)) := by
  cases hm : mapper (_load_input w.input w.stdin) with
  | error e =>
    refine ⟨?_, ?_, ?_⟩
    · intro hmem
      simp [run_mapreduce_job, hm] at hmem
    · intro hok
      simp [run_mapreduce_job, hm] at hok
    · intro hno
      simp only [run_mapreduce_job, hm]
      constructor
      · intro hok
        simp at hok
      · intro hmem
        exact absurd hmem hno
  | ok mapped =>
    cases hr : reducer (_shuffle_and_sort mapped) with
    | error e =>
      refine ⟨?_, ?_, ?_⟩
      · intro hmem
        simp [run_mapreduce_job, hm, hr] at hmem
      · intro hok
        simp [run_mapreduce_job, hm, hr] at hok
      · intro hno
        simp only [run_mapreduce_job, hm, hr]
        constructor
        · intro hok
          simp at hok
        · intro hmem
          exact absurd hmem hno
    | ok reduced =>
      cases hd : _create_output_directory w.output with
      | error leftover =>
        obtain ⟨entries, hout, hsub⟩ := create_output_directory_error_sublist w.output leftover hd
        refine ⟨?_, ?_, ?_⟩
        · intro hmem
          simp [run_mapreduce_job, hm, hr, hd] at hmem
        · intro hok
          simp [run_mapreduce_job, hm, hr, hd] at hok
        · intro hno
          rw [hout] at hno
          simp only [run_mapreduce_job, hm, hr, hd]
          constructor
          · intro hok
            simp at hok
          · intro hmem
            simp only [Option.getD_some] at hmem hno
            exact absurd ((hsub.map Entry.name).subset hmem) hno
      | ok fresh =>
        have hfresh : fresh = [] := create_output_directory_ok w.output fresh hd
        subst hfresh
        refine ⟨?_, ?_, ?_⟩
        · intro _
          exact ⟨[Event.mapperCalled (_load_input w.input w.stdin),
            Event.reducerCalled (_shuffle_and_sort mapped), Event.resetDir],
            by simp [run_mapreduce_job, hm, hr, hd]⟩
        · intro _
          simp [run_mapreduce_job, hm, hr, hd, _save_output, _create_marker, writeFile]
        · intro _
          constructor
          · intro _
            simp [run_mapreduce_job, hm, hr, hd, _save_output, _create_marker, writeFile]
          · intro _
            simp [run_mapreduce_job, hm, hr, hd]

/-- C6 amended, witness: a run over an output directory holding no
prior marker (only a stale data file); the run succeeds and the
equivalence is discharged concretely. -/
theorem marker_after_result_iff_success_witness :
    (run_mapreduce_job (fun s => .ok s) (fun s => .ok s)
        ⟨some [⟨"a.txt", ["x"]⟩], [], some [⟨"old.txt", "junk", false⟩]⟩).err = none ↔
      "_SUCCESS" ∈ ((run_mapreduce_job (fun s => .ok s) (fun s => .ok s)
        ⟨some [⟨"a.txt", ["x"]⟩], [], some [⟨"old.txt", "junk", false⟩]⟩).world.output.getD
          []).map Entry.name :=
  (marker_after_result_iff_success (fun s => .ok s) (fun s => .ok s)
    ⟨some [⟨"a.txt", ["x"]⟩], [], some [⟨"old.txt", "junk", false⟩]⟩).2.2 (by decide)



/-- C8: in every run the orchestrator invokes the mapper exactly once,
passing it the entire loaded sequence; if that one invocation raises,
the error surfaces to the caller unmodified and the reducer is never
reached; if it returns, the reducer is invoked exactly once on the
entire sorted sequence and any error it raises surfaces unmodified —
no stage catches, wraps, retries or suppresses either failure. -/
theorem run_invokes_each_transformation_once
    (mapper reducer : List (String × String) → Except String (List (String × String)))
    (w : World) :
    ((run_mapreduce_job mapper reducer w).trace.countP Event.isMapperCall = 1 ∧
      Event.mapperCalled (_load_input w.input w.stdin)
        ∈ (run_mapreduce_job mapper reducer w).trace) ∧
    (∀ e, mapper (_load_input w.input w.stdin) = .error e →
      (run_mapreduce_job mapper reducer w).err = some e ∧
      (run_mapreduce_job mapper reducer w).trace.countP Event.isReducerCall = 0) ∧
    (∀ mapped, mapper (_load_input w.input w.stdin) = .ok mapped →
      (run_mapreduce_job mapper reducer w).trace.countP Event.isReducerCall = 1 ∧
      Event.reducerCalled (_shuffle_and_sort mapped)
        ∈ (run_mapreduce_job mapper reducer w).trace ∧
      ∀ e, reducer (_shuffle_and_sort mapped) = .error e →
        (run_mapreduce_job mapper reducer w).err = some e) := by
  cases hm : mapper (_load_input w.input w.stdin) with
  | error e =>
    refine ⟨?_, ?_, ?_⟩
    · simp [run_mapreduce_job, hm, List.countP_cons, Event.isMapperCall]
    · intro e' he'
      simp only [Except.error.injEq] at he'
      subst he'
      simp [run_mapreduce_job, hm, List.countP_cons, Event.isReducerCall]
    · intro mapped hmapped
      cases hmapped
  | ok mapped =>
    refine ⟨?_, ?_, ?_⟩
    · cases hr : reducer (_shuffle_and_sort mapped) with
      | error e =>
        simp [run_mapreduce_job, hm, hr, List.countP_cons, Event.isMapperCall]
      | ok reduced =>
        cases hd : _create_output_directory w.output with
        | error leftover =>
          simp [run_mapreduce_job, hm, hr, hd, List.countP_cons, Event.isMapperCall]
        | ok fresh =>
          simp [run_mapreduce_job, hm, hr, hd, List.countP_cons, Event.isMapperCall]
    · intro e he
      cases he
    · intro mapped' hmapped'
      simp only [Except.ok.injEq] at hmapped'
      subst hmapped'
      cases hr : reducer (_shuffle_and_sort mapped) with
      | error e =>
        refine ⟨?_, ?_, ?_⟩
        · simp [run_mapreduce_job, hm, hr, List.countP_cons, Event.isReducerCall]
        · simp [run_mapreduce_job, hm, hr]
        · intro e' he'
          simp only [Except.error.injEq] at he'
          subst he'
          simp [run_mapreduce_job, hm, hr]
      | ok reduced =>
        cases hd : _create_output_directory w.output with
        | error leftover =>
          refine ⟨?_, ?_, ?_⟩
          · simp [run_mapreduce_job, hm, hr, hd, List.countP_cons, Event.isReducerCall]
          · simp [run_mapreduce_job, hm, hr, hd]
          · intro e' he'
            cases he'
        | ok fresh =>
          refine ⟨?_, ?_, ?_⟩
          · simp [run_mapreduce_job, hm, hr, hd, List.countP_cons, Event.isReducerCall]
          · simp [run_mapreduce_job, hm, hr, hd]
          · intro e' he'
            cases he'

/-- C8, witness: a run whose reducer raises; the mapper was called
once and the reducer's error surfaced unmodified. -/
theorem run_invokes_each_transformation_once_witness :
    (run_mapreduce_job (fun s => .ok s) (fun _ => .error "boom")
        ⟨some [⟨"a.txt", ["x"]⟩], [], none⟩).err = some "boom" :=
  ((run_invokes_each_transformation_once (fun s => .ok s) (fun _ => .error "boom")
      ⟨some [⟨"a.txt", ["x"]⟩], [], none⟩).2.2 [("a.txt", "x")] rfl).2.2
    "boom" rfl

/-- C9 (code bug): re-running the job is not idempotent when the input
directory matches no file.  With an empty input directory, one line
`"x"` pending on stdin and identity mapper/reducer, the first run
(via the loader's stdin fallback) writes a result file containing
`<stdin>TABxNL` and consumes stdin; the second, identical invocation
loads nothing and writes an empty result file — both runs succeed but
the output directory contents differ. -/
theorem rerun_differs_after_stdin_fallback :
    (run_mapreduce_job (fun s => .ok s) (fun s => .ok s) ⟨some [], ["x"], none⟩).err
        = none ∧
    (run_mapreduce_job (fun s => .ok s) (fun s => .ok s)
        (run_mapreduce_job (fun s => .ok s) (fun s => .ok s)
          ⟨some [], ["x"], none⟩).world).err = none ∧
    (run_mapreduce_job (fun s => .ok s) (fun s => .ok s)
        ⟨some [], ["x"], none⟩).world.output
      ≠ (run_mapreduce_job (fun s => .ok s) (fun s => .ok s)
          (run_mapreduce_job (fun s => .ok s) (fun s => .ok s)
            ⟨some [], ["x"], none⟩).world).world.output := by
  decide


end MapReduce
